import Mathlib

/-!
Verification of the cluster bucketizer library (clusterlib.py, clusterfile.py,
convert.py).

Cluster ids and member ids are plain string tokens.  An association set is a list
of (cluster-id, member-id) pairs.  The classification engine joins the two
sets on member id, keeps the distinct (cid1, cid2) cluster pairs, and then
splits them into the Nto1 / 1to1 / 1toN / NtoN buckets by destructive scans
over a pair of parallel lists (clist1, clist2).  Here the parallel lists are
modelled as a single list of pairs; the faithful two-parallel-list versions
of each scan are defined further below and proved equivalent to the paired
model.

String comparison: Python compares strings lexicographically by character
ordinal, and the SQL `order by` on the varchar columns is modelled with the
same (C-collation / byte order) comparison.  Both are modelled by `ltChars`
on the underlying character lists.
-/

/-- Lexicographic strict comparison of character lists by code point,
modelling Python string `<` and C-collation SQL ordering. -/
def ltChars : List Char → List Char → Bool
  | _, [] => false
  | [], _ :: _ => true
  | a :: as, b :: bs =>
    if a.toNat < b.toNat then true
    else if b.toNat < a.toNat then false
    else ltChars as bs

/-- Strict string comparison on the underlying character data. -/
def ltStr (s t : String) : Bool :=
  ltChars s.data t.data

/-- Non-strict string comparison. -/
def leStr (s t : String) : Bool :=
  ltStr s t || s == t

/-- An association record: (cluster id, cluster member id). -/
abbrev Assoc := String × String

/-- A joint cluster pair: (cid from set 1, cid from set 2). -/
abbrev CPair := String × String

/-- Ordering of pairs by second component, then first: the `order by
s2.cid, s1.cid` of getLists. -/
def leSndB (p q : CPair) : Bool :=
  ltStr p.2 q.2 || (p.2 == q.2 && leStr p.1 q.1)

/-- Ordering of pairs by first component, then second: the `order by cid,
cmid` of get0to1/get1to0, and the order claimed for the joint buckets. -/
def leFstB (p q : CPair) : Bool :=
  ltStr p.1 q.1 || (p.1 == q.1 && leStr p.2 q.2)

/-- Ordering of pairs by the concatenation of the two components: the
comparison `set1[j]+set2[j] < set1[i]+set2[i]` used by sortLists. -/
def leCatB (p q : CPair) : Bool :=
  leStr (p.1 ++ p.2) (q.1 ++ q.2)

/-- Propositional form of `leSndB`, used for sortedness statements. -/
def LeSnd (p q : CPair) : Prop := leSndB p q = true

/-- Propositional form of `leFstB`. -/
def LeFst (p q : CPair) : Prop := leFstB p q = true

/-- Propositional form of `leCatB`. -/
def LeCat (p q : CPair) : Prop := leCatB p q = true

instance : DecidableRel LeSnd := fun p q => instDecidableEqBool (leSndB p q) true

instance : DecidableRel LeFst := fun p q => instDecidableEqBool (leFstB p q) true

instance : DecidableRel LeCat := fun p q => instDecidableEqBool (leCatB p q) true

/-- The member-join subquery of get0to1: does the set-2 cluster `c` share at
least one member with set 1?  (`select s2.cid from s1, s2 where s1.cmid =
s2.cmid`, used as a `not in` filter.) -/
def shared2 (set1 set2 : List Assoc) (c : String) : Bool :=
  set2.any fun b => b.1 == c && set1.any fun a => a.2 == b.2

/-- The member-join subquery of get1to0: does the set-1 cluster `c` share at
least one member with set 2? -/
def shared1 (set1 set2 : List Assoc) (c : String) : Bool :=
  set1.any fun a => a.1 == c && set2.any fun b => b.2 == a.2

/-- get0to1: the associations of set 2 whose cluster id is not produced by
the member join, ordered by (cid, cmid). -/
def get0to1 (set1 set2 : List Assoc) : List Assoc :=
  List.insertionSort LeFst (set2.filter fun b => !shared2 set1 set2 b.1)

/-- get1to0: the associations of set 1 whose cluster id is not produced by
the member join, ordered by (cid, cmid). -/
def get1to0 (set1 set2 : List Assoc) : List Assoc :=
  List.insertionSort LeFst (set1.filter fun a => !shared1 set1 set2 a.1)

/-- getLists: `select distinct s1.cid, s2.cid from s1, s2 where s1.cmid =
s2.cmid order by s2.cid, s1.cid` — the distinct joint cluster pairs, sorted
by (cid2, cid1). -/
def getLists (set1 set2 : List Assoc) : List CPair :=
  List.insertionSort LeSnd
    ((set1.flatMap fun a => set2.filterMap fun b =>
      if a.2 == b.2 then some (a.1, b.1) else none).dedup)

/-- The scan of getNto1 over the paired cluster lists.  `done` holds (in
reverse) the pairs before the current position `i`; the full current list is
`done.reverse ++ rest`.  At each step the head's cid2 is the candidate hub:
`nlist` collects the cid1 partners from position `i` on; the hub is written
and deleted when there is more than one partner and no partner occurs more
than once in clist1, otherwise the scan skips past the contiguous run of the
candidate cid2.  The fuel argument only bounds the recursion; every step
consumes at least one element of `rest`, so `rest.length` fuel is enough. -/
def nto1Go : Nat → List CPair → List CPair → List CPair × List CPair
  | 0, done, rest => ([], done.reverse ++ rest)
  | _ + 1, done, [] => ([], done.reverse)
  | fuel + 1, done, p :: rs =>
    let c1s := (done.reverse ++ p :: rs).map Prod.fst
    let nlist := ((p :: rs).filter fun q => q.2 == p.2).map Prod.fst
    if decide (1 < nlist.length) && nlist.all (fun c => decide (c1s.count c ≤ 1)) then
      let r := nto1Go fuel done (rs.filter fun q => !(q.2 == p.2))
      (((p :: rs).filter fun q => q.2 == p.2) ++ r.1, r.2)
    else
      nto1Go fuel (((p :: rs).takeWhile fun q => q.2 == p.2).reverse ++ done)
        ((p :: rs).dropWhile fun q => q.2 == p.2)

/-- getNto1 operates on the joint list as produced by getLists. -/
def getNto1 (l : List CPair) : List CPair × List CPair :=
  nto1Go l.length [] l

/-- One outer-loop step of the sortLists exchange sort: scan the tail,
swapping the current minimum candidate `m` with any later element whose
concatenated key is smaller; returns the element that ends up at the current
position together with the re-arranged tail. -/
def bubblePass : CPair → List CPair → CPair × List CPair
  | m, [] => (m, [])
  | m, x :: xs =>
    if ltStr (x.1 ++ x.2) (m.1 ++ m.2) then
      let r := bubblePass x xs
      (r.1, m :: r.2)
    else
      let r := bubblePass m xs
      (r.1, x :: r.2)

theorem bubblePass_length (m : CPair) (l : List CPair) :
    (bubblePass m l).2.length = l.length := by
  induction l generalizing m with
  | nil => rfl
  | cons x xs ih =>
    simp only [bubblePass]
    split
    · simp [ih]
    · simp [ih]

/-- The outer loop of the sortLists exchange sort; each iteration fixes one
position, so `l.length` fuel is enough. -/
def sortGo : Nat → List CPair → List CPair
  | 0, l => l
  | _ + 1, [] => []
  | fuel + 1, x :: xs =>
    let r := bubblePass x xs
    r.1 :: sortGo fuel r.2

/-- sortLists(1): the exchange sort over the paired cluster lists, comparing
by the concatenation of the two cluster ids. -/
def sortLists (l : List CPair) : List CPair :=
  sortGo l.length l

/-- The scan of get1to1 over the paired cluster lists: the head pair is
written and deleted when its cid1 occurs exactly once in clist1 and its cid2
occurs exactly once in clist2 (counq over the full current lists), else the
scan advances. -/
def oneToOneGo : List CPair → List CPair → List CPair × List CPair
  | done, [] => ([], done.reverse)
  | done, p :: rs =>
    let full := done.reverse ++ p :: rs
    if (full.map Prod.fst).count p.1 == 1 && (full.map Prod.snd).count p.2 == 1 then
      let r := oneToOneGo done rs
      (p :: r.1, r.2)
    else
      oneToOneGo (p :: done) rs

/-- get1to1 starts its scan at the beginning of the lists. -/
def get1to1 (l : List CPair) : List CPair × List CPair :=
  oneToOneGo [] l

/-- The scan of get1toN, mirror of `nto1Go`: the head's cid1 is the
candidate hub, `nlist` collects the cid2 partners from the current position
on, and the hub is written and deleted when there is more than one partner
and no partner occurs more than once in clist2. -/
def oneToNGo : Nat → List CPair → List CPair → List CPair × List CPair
  | 0, done, rest => ([], done.reverse ++ rest)
  | _ + 1, done, [] => ([], done.reverse)
  | fuel + 1, done, p :: rs =>
    let c2s := (done.reverse ++ p :: rs).map Prod.snd
    let nlist := ((p :: rs).filter fun q => q.1 == p.1).map Prod.snd
    if decide (1 < nlist.length) && nlist.all (fun c => decide (c2s.count c ≤ 1)) then
      let r := oneToNGo fuel done (rs.filter fun q => !(q.1 == p.1))
      (((p :: rs).filter fun q => q.1 == p.1) ++ r.1, r.2)
    else
      oneToNGo fuel (((p :: rs).takeWhile fun q => q.1 == p.1).reverse ++ done)
        ((p :: rs).dropWhile fun q => q.1 == p.1)

/-- get1toN starts its scan at the beginning of the lists. -/
def get1toN (l : List CPair) : List CPair × List CPair :=
  oneToNGo l.length [] l

/-- The loop of getNtoN: `for i in range(0, len(clist1))` writes the head
pair and deletes it; the range bound is evaluated once, before the loop. -/
def ntonGo : Nat → List CPair → List CPair × List CPair
  | 0, l => ([], l)
  | _ + 1, [] => ([], [])
  | n + 1, p :: rs =>
    let r := ntonGo n rs
    (p :: r.1, r.2)

/-- getNtoN writes every remaining pair. -/
def getNtoN (l : List CPair) : List CPair × List CPair :=
  ntonGo l.length l

/-- The six bucket files of one bucketize run, plus the contents left in the
cluster lists after the run. -/
structure Buckets where
  b0to1 : List Assoc
  b1to0 : List Assoc
  b1to1 : List CPair
  b1toN : List CPair
  bNto1 : List CPair
  bNtoN : List CPair
  leftover : List CPair
deriving DecidableEq

/-- The classification pipeline of bucketize: 0to1 and 1to0 from the
anti-joins, then the joint list (sorted by cid2, cid1), the N:1 scan, the
re-sort by concatenated ids, and the 1:1, 1:N and N:N scans. -/
def bucketize (set1 set2 : List Assoc) : Buckets :=
  let z1 := get0to1 set1 set2
  let z2 := get1to0 set1 set2
  let jl := getLists set1 set2
  let rN := getNto1 jl
  let s := sortLists rN.2
  let r1 := get1to1 s
  let rn := get1toN r1.2
  let rr := getNtoN rn.2
  ⟨z1, z2, r1.1, rn.1, rN.1, rr.1, rr.2⟩

/-!
Connected components of the bipartite joint-edge graph (the spec's Component
notion, used to state shape-determined classification): two edges touch when
they share the set-1 endpoint or the set-2 endpoint; a component is the
closure of one edge under touching.
-/

/-- Two joint edges are adjacent when they share an endpoint on either
side. -/
def touches (e f : CPair) : Bool :=
  e.1 == f.1 || e.2 == f.2

/-- One expansion step of a component: add every edge of `es` touching the
current set. -/
def growComp (es cur : List CPair) : List CPair :=
  cur ++ es.filter fun f => !cur.contains f && cur.any fun e => touches e f

/-- Iterate component expansion. -/
def compIter (es : List CPair) : Nat → List CPair → List CPair
  | 0, cur => cur
  | n + 1, cur => compIter es n (growComp es cur)

/-- The connected component (as an edge list) of edge `e` in the graph whose
edge set is `es`; `es.length` expansion rounds always reach the closure. -/
def componentOf (es : List CPair) (e : CPair) : List CPair :=
  compIter es es.length [e]

/-- Decidable same-component test for two edges. -/
def sameComponent (es : List CPair) (e f : CPair) : Bool :=
  (componentOf es e).contains f

/-!
The file-backed driver path.  loadFileSource checks that the input file
exists and loads its records into a freshly created temporary table
`cluster_set<tempno>`; the temporary tables live for the whole database
session (the driver keeps one connection open precisely so that they
survive between statements).  The session is modelled as the list of
(tempno, rows) temporary tables; creating a table whose name already
exists in the session is an SQL error, modelled as the error result.
-/

/-- A database session: the temporary cluster-set tables it holds. -/
abbrev Session := List (Nat × List Assoc)

/-- loadFileSource: `none` when the input file does not exist (the function
returns 1) or when `create temporary table cluster_set<tempno>` fails
because the previous run's table of the same name still exists in the
session; otherwise the session extended with the loaded table. -/
def loadFileSource (files : String → Option (List Assoc)) (sess : Session)
    (file : String) (tempno : Nat) : Option Session :=
  match files file with
  | none => none
  | some rows =>
    if sess.any fun t => t.1 == tempno then none
    else some (sess ++ [(tempno, rows)])

/-- The empty bucket set (no output written). -/
def emptyBuckets : Buckets :=
  ⟨[], [], [], [], [], [], []⟩

/-- bucketize, driven by two input files: load each file into a temporary
table (tempno 1 and 2), then run the classification.  Returns the function
result (0 success, 1 error), the session as left by the run, and the
buckets written. -/
def bucketizeRun (files : String → Option (List Assoc)) (sess : Session)
    (file1 file2 : String) : Nat × Session × Buckets :=
  match loadFileSource files sess file1 1 with
  | none => (1, sess, emptyBuckets)
  | some s1 =>
    match loadFileSource files s1 file2 2 with
    | none => (1, s1, emptyBuckets)
    | some s2 => (0, s2, bucketize ((files file1).getD []) ((files file2).getD []))

/-- The MAIN of clusterfile.py: with exactly three arguments after the
script name it calls bucketize on the two files, discards the returned
status, and exits 0; otherwise it prints the usage line and exits 1.
Returns (exit code, session). -/
def clusterfileMain (argv : List String) (files : String → Option (List Assoc))
    (sess : Session) : Nat × Session :=
  if argv.length == 4 then
    let r := bucketizeRun files sess (argv.getD 1 "") (argv.getD 2 "")
    (0, r.2.1)
  else (1, sess)

/-- A filesystem with exactly the two cluster-set input files. -/
def twoFiles (c1 c2 : List Assoc) : String → Option (List Assoc) :=
  fun p => if p == "file1" then some c1 else if p == "file2" then some c2 else none

/-!
convert.py.  Each input line is `ClusterID<TAB>member-list`; the first run
of spaces/tabs is replaced by a pipe, the cluster id is the text before the
first pipe, and the remainder (newlines removed) is split on the delimiter
character; each piece is stripped and written as `cid<TAB>piece`.  Lines
with no whitespace, an empty cluster id or an empty member list are
skipped.  The script refuses to run when the input file is missing or the
output file already exists.
-/

/-- Space or tab, the whitespace class of the first regsub.sub pattern. -/
def isSpaceTab (c : Char) : Bool :=
  c == ' ' || c == '\t'

/-- Python string whitespace, for str.strip. -/
def isPyWs (c : Char) : Bool :=
  c == ' ' || c == '\t' || c == '\n' || c == '\r'

/-- Replace the first maximal run of spaces/tabs by a single pipe
(regsub.sub of the pattern for one-or-more space-or-tab). -/
def subFirstWs : List Char → List Char
  | [] => []
  | c :: cs => if isSpaceTab c then '|' :: cs.dropWhile isSpaceTab else c :: subFirstWs cs

/-- str.strip: drop leading and trailing whitespace. -/
def stripWs (l : List Char) : List Char :=
  ((l.dropWhile isPyWs).reverse.dropWhile isPyWs).reverse

/-- Convert one input line to zero or more output lines. -/
def convertLine (d : Char) (line : List Char) : List String :=
  let subbed := subFirstWs line
  match subbed.findIdx? fun c => c == '|' with
  | none => []
  | some 0 => []
  | some pipe =>
    let cid := subbed.take pipe
    let rest := (subbed.drop (pipe + 1)).filter fun c => !(c == '\n')
    if rest.length == 0 then []
    else (List.splitOn d rest).map fun part =>
      cid.asString ++ "\t" ++ (stripWs part).asString ++ "\n"

/-- Convert a whole input file; the delimiter argument is its first
character (the script is documented for single-character delimiters). -/
def convertContents (delim : String) (content : String) : String :=
  String.join ((content.data.splitOn '\n').flatMap fun line =>
    convertLine (delim.data.headD ' ') line)

/-- The MAIN of convert.py over a filesystem mapping paths to file
contents: exits 1 on a wrong argument count, a missing input file or an
already existing output file (in that order, before opening any file);
otherwise writes the converted output file and exits 0.  Returns (exit
code, resulting filesystem). -/
def convertMain (argv : List String) (fs : String → Option String) :
    Nat × (String → Option String) :=
  if argv.length == 4 then
    if (fs (argv.getD 1 "")).isNone then (1, fs)
    else if (fs (argv.getD 2 "")).isSome then (1, fs)
    else
      (0, fun p => if p == argv.getD 2 "" then
        some (convertContents (argv.getD 3 "") ((fs (argv.getD 1 "")).getD ""))
      else fs p)
  else (1, fs)

/-!
The two-parallel-list embedding.  The source keeps the joint pairs as two
module-level lists clist1, clist2 indexed in lockstep; every operation
reads `(clist1[j], clist2[j])`, deletes both coordinates at the same index,
and swaps both coordinates together.  The versions below (suffix `L`)
operate on the two lists; the paired model above is proved equivalent to
them, which is exactly the statement that the index pairing is preserved.
-/

/-- Two-list form of one exchange-sort pass: the candidate minimum is the
pair (m1, m2); comparisons use the concatenated ids, and a swap exchanges
the coordinates of both lists at the same position. -/
def bubblePassL : String → String → List String → List String →
    (String × String) × List String × List String
  | m1, m2, x :: xs, y :: ys =>
    if ltStr (x ++ y) (m1 ++ m2) then
      let r := bubblePassL x y xs ys
      (r.1, m1 :: r.2.1, m2 :: r.2.2)
    else
      let r := bubblePassL m1 m2 xs ys
      (r.1, x :: r.2.1, y :: r.2.2)
  | m1, m2, _, _ => ((m1, m2), [], [])

/-- Two-list form of the exchange-sort outer loop. -/
def sortGoL : Nat → List String → List String → List String × List String
  | 0, l1, l2 => (l1, l2)
  | _ + 1, [], l2 => ([], l2)
  | _ + 1, x :: xs, [] => (x :: xs, [])
  | fuel + 1, x :: xs, y :: ys =>
    let r := bubblePassL x y xs ys
    let s := sortGoL fuel r.2.1 r.2.2
    (r.1.1 :: s.1, r.1.2 :: s.2)

/-- sortLists on the two cluster lists. -/
def sortListsL (l1 l2 : List String) : List String × List String :=
  sortGoL l1.length l1 l2

/-- Two-list form of the get1to1 scan. -/
def oneToOneGoL : List String → List String → List String → List String →
    List CPair × List String × List String
  | d1, d2, a :: as, b :: bs =>
    if (d1.reverse ++ a :: as).count a == 1 && (d2.reverse ++ b :: bs).count b == 1 then
      let r := oneToOneGoL d1 d2 as bs
      ((a, b) :: r.1, r.2)
    else
      oneToOneGoL (a :: d1) (b :: d2) as bs
  | d1, d2, l1, l2 => ([], d1.reverse ++ l1, d2.reverse ++ l2)

/-- get1to1 on the two cluster lists. -/
def get1to1L (l1 l2 : List String) : List CPair × List String × List String :=
  oneToOneGoL [] [] l1 l2

/-- The pairs (clist1[j], clist2[j]) at the positions where the second list
holds `c` (the write loop of getNto1). -/
def selSnd (c : String) : List String → List String → List CPair
  | a :: as, b :: bs =>
    if b == c then (a, b) :: selSnd c as bs else selSnd c as bs
  | _, _ => []

/-- Delete, from both lists in lockstep, every position where the second
list holds `c` (the deletions of getNto1's write loop). -/
def remSnd (c : String) : List String → List String → List String × List String
  | a :: as, b :: bs =>
    let r := remSnd c as bs
    if b == c then r else (a :: r.1, b :: r.2)
  | l1, l2 => (l1, l2)

/-- Split both lists in lockstep at the end of the leading run of positions
where the second list holds `c` (the index skip of getNto1's else branch). -/
def spanSnd (c : String) : List String → List String →
    (List String × List String) × List String × List String
  | a :: as, b :: bs =>
    if b == c then
      let r := spanSnd c as bs
      ((a :: r.1.1, b :: r.1.2), r.2)
    else (([], []), a :: as, b :: bs)
  | l1, l2 => (([], []), l1, l2)

/-- Two-list form of the getNto1 scan. -/
def nto1GoL : Nat → List String → List String → List String → List String →
    List CPair × List String × List String
  | 0, d1, d2, r1, r2 => ([], d1.reverse ++ r1, d2.reverse ++ r2)
  | _ + 1, d1, d2, [], r2 => ([], d1.reverse, d2.reverse ++ r2)
  | fuel + 1, d1, d2, a :: as, b :: bs =>
    let nlist := (selSnd b (a :: as) (b :: bs)).map Prod.fst
    if decide (1 < nlist.length) &&
        nlist.all (fun c => decide ((d1.reverse ++ a :: as).count c ≤ 1)) then
      let rem := remSnd b as bs
      let r := nto1GoL fuel d1 d2 rem.1 rem.2
      (selSnd b (a :: as) (b :: bs) ++ r.1, r.2)
    else
      let sp := spanSnd b (a :: as) (b :: bs)
      nto1GoL fuel (sp.1.1.reverse ++ d1) (sp.1.2.reverse ++ d2) sp.2.1 sp.2.2
  | _ + 1, d1, d2, l1, l2 => ([], d1.reverse ++ l1, d2.reverse ++ l2)

/-- getNto1 on the two cluster lists. -/
def getNto1L (l1 l2 : List String) : List CPair × List String × List String :=
  nto1GoL l1.length [] [] l1 l2

/-- The pairs (clist1[j], clist2[j]) at the positions where the first list
holds `c` (the write loop of get1toN). -/
def selFst (c : String) : List String → List String → List CPair
  | a :: as, b :: bs =>
    if a == c then (a, b) :: selFst c as bs else selFst c as bs
  | _, _ => []

/-- Delete, from both lists in lockstep, every position where the first
list holds `c`. -/
def remFst (c : String) : List String → List String → List String × List String
  | a :: as, b :: bs =>
    let r := remFst c as bs
    if a == c then r else (a :: r.1, b :: r.2)
  | l1, l2 => (l1, l2)

/-- Split both lists in lockstep at the end of the leading run of positions
where the first list holds `c`. -/
def spanFst (c : String) : List String → List String →
    (List String × List String) × List String × List String
  | a :: as, b :: bs =>
    if a == c then
      let r := spanFst c as bs
      ((a :: r.1.1, b :: r.1.2), r.2)
    else (([], []), a :: as, b :: bs)
  | l1, l2 => (([], []), l1, l2)

/-- Two-list form of the get1toN scan. -/
def oneToNGoL : Nat → List String → List String → List String → List String →
    List CPair × List String × List String
  | 0, d1, d2, r1, r2 => ([], d1.reverse ++ r1, d2.reverse ++ r2)
  | _ + 1, d1, d2, [], r2 => ([], d1.reverse, d2.reverse ++ r2)
  | fuel + 1, d1, d2, a :: as, b :: bs =>
    let nlist := (selFst a (a :: as) (b :: bs)).map Prod.snd
    if decide (1 < nlist.length) &&
        nlist.all (fun c => decide ((d2.reverse ++ b :: bs).count c ≤ 1)) then
      let rem := remFst a as bs
      let r := oneToNGoL fuel d1 d2 rem.1 rem.2
      (selFst a (a :: as) (b :: bs) ++ r.1, r.2)
    else
      let sp := spanFst a (a :: as) (b :: bs)
      oneToNGoL fuel (sp.1.1.reverse ++ d1) (sp.1.2.reverse ++ d2) sp.2.1 sp.2.2
  | _ + 1, d1, d2, l1, l2 => ([], d1.reverse ++ l1, d2.reverse ++ l2)

/-- get1toN on the two cluster lists. -/
def get1toNL (l1 l2 : List String) : List CPair × List String × List String :=
  oneToNGoL l1.length [] [] l1 l2

/-- Two-list form of the getNtoN drain loop. -/
def ntonGoL : Nat → List String → List String → List CPair × List String × List String
  | 0, l1, l2 => ([], l1, l2)
  | n + 1, a :: as, b :: bs =>
    let r := ntonGoL n as bs
    ((a, b) :: r.1, r.2)
  | _ + 1, l1, l2 => ([], l1, l2)

/-- getNtoN on the two cluster lists. -/
def getNtoNL (l1 l2 : List String) : List CPair × List String × List String :=
  ntonGoL l1.length l1 l2

/-!
Order lemmas for the string comparators.
-/

theorem charToNat_inj {a b : Char} (h : a.toNat = b.toNat) : a = b := by
  have h1 : Char.ofNat a.toNat = Char.ofNat b.toNat := by rw [h]
  rwa [Char.ofNat_toNat, Char.ofNat_toNat] at h1

theorem stringData_inj {s t : String} (h : s.data = t.data) : s = t := by
  cases s
  cases t
  exact congrArg String.mk h

theorem ltChars_trans {as bs cs : List Char} (h1 : ltChars as bs = true)
    (h2 : ltChars bs cs = true) : ltChars as cs = true := by
  induction as generalizing bs cs with
  | nil =>
    cases bs with
    | nil => simp [ltChars] at h1
    | cons b bs =>
      cases cs with
      | nil => simp [ltChars] at h2
      | cons c cs => simp [ltChars]
  | cons a as ih =>
    cases bs with
    | nil => simp [ltChars] at h1
    | cons b bs =>
      cases cs with
      | nil => simp [ltChars] at h2
      | cons c cs =>
        simp only [ltChars] at h1 h2 ⊢
        split_ifs at h1 h2 ⊢ <;> first
          | rfl
          | omega
          | exact ih h1 h2

theorem ltChars_conn {as bs : List Char} (h1 : ltChars as bs = false)
    (h2 : ltChars bs as = false) : as = bs := by
  induction as generalizing bs with
  | nil =>
    cases bs with
    | nil => rfl
    | cons b bs => simp [ltChars] at h1
  | cons a as ih =>
    cases bs with
    | nil => simp [ltChars] at h2
    | cons b bs =>
      simp only [ltChars] at h1 h2
      split_ifs at h1 h2
      all_goals first
        | simp at h1
        | simp at h2
        | (have hab : a = b := charToNat_inj (by omega)
           rw [hab, ih h1 h2])

theorem ltStr_trans {s t u : String} (h1 : ltStr s t = true)
    (h2 : ltStr t u = true) : ltStr s u = true :=
  ltChars_trans h1 h2

theorem ltStr_conn {s t : String} (h1 : ltStr s t = false)
    (h2 : ltStr t s = false) : s = t :=
  stringData_inj (ltChars_conn h1 h2)

theorem leStr_total (s t : String) : leStr s t = true ∨ leStr t s = true := by
  unfold leStr
  rcases h1 : ltStr s t with _ | _
  · rcases h2 : ltStr t s with _ | _
    · left
      simp [ltStr_conn h1 h2]
    · right
      simp
  · left
    simp

theorem leStr_trans {s t u : String} (h1 : leStr s t = true)
    (h2 : leStr t u = true) : leStr s u = true := by
  unfold leStr at h1 h2 ⊢
  rcases Bool.or_eq_true_iff.mp h1 with h1' | h1'
  · rcases Bool.or_eq_true_iff.mp h2 with h2' | h2'
    · simp [ltStr_trans h1' h2']
    · have : t = u := by simpa using h2'
      simp [this ▸ h1']
  · have : s = t := by simpa using h1'
    subst this
    exact h2

theorem leSndB_total (p q : CPair) : leSndB p q = true ∨ leSndB q p = true := by
  unfold leSndB
  rcases h1 : ltStr p.2 q.2 with _ | _
  · rcases h2 : ltStr q.2 p.2 with _ | _
    · have he : p.2 = q.2 := ltStr_conn h1 h2
      rcases leStr_total p.1 q.1 with h | h
      · left
        simp [he, h]
      · right
        simp [he, h]
    · right
      simp [h2]
  · left
    simp

theorem leSndB_trans {p q r : CPair} (h1 : leSndB p q = true)
    (h2 : leSndB q r = true) : leSndB p r = true := by
  unfold leSndB at h1 h2 ⊢
  rcases Bool.or_eq_true_iff.mp h1 with h1' | h1'
  · rcases Bool.or_eq_true_iff.mp h2 with h2' | h2'
    · simp [ltStr_trans h1' h2']
    · have he : q.2 = r.2 := by
        have := Bool.and_eq_true_iff.mp h2'
        simpa using this.1
      simp [he ▸ h1']
  · have h1a := Bool.and_eq_true_iff.mp h1'
    have he : p.2 = q.2 := by simpa using h1a.1
    rcases Bool.or_eq_true_iff.mp h2 with h2' | h2'
    · simp [he ▸ h2']
    · have h2a := Bool.and_eq_true_iff.mp h2'
      have he2 : q.2 = r.2 := by simpa using h2a.1
      have hl := leStr_trans h1a.2 h2a.2
      simp [he.trans he2, hl]

theorem leFstB_total (p q : CPair) : leFstB p q = true ∨ leFstB q p = true := by
  simpa [leFstB, leSndB] using leSndB_total (p.2, p.1) (q.2, q.1)

theorem leFstB_trans {p q r : CPair} (h1 : leFstB p q = true)
    (h2 : leFstB q r = true) : leFstB p r = true := by
  have h1' : leSndB (p.2, p.1) (q.2, q.1) = true := by simpa [leFstB, leSndB] using h1
  have h2' : leSndB (q.2, q.1) (r.2, r.1) = true := by simpa [leFstB, leSndB] using h2
  simpa [leFstB, leSndB] using leSndB_trans h1' h2'

theorem leCatB_total (p q : CPair) : leCatB p q = true ∨ leCatB q p = true := by
  unfold leCatB
  exact leStr_total _ _

theorem leCatB_trans {p q r : CPair} (h1 : leCatB p q = true)
    (h2 : leCatB q r = true) : leCatB p r = true :=
  leStr_trans h1 h2

instance : IsTotal CPair LeSnd := ⟨leSndB_total⟩

instance : IsTrans CPair LeSnd := ⟨fun _ _ _ => leSndB_trans⟩

instance : IsTotal CPair LeFst := ⟨leFstB_total⟩

instance : IsTrans CPair LeFst := ⟨fun _ _ _ => leFstB_trans⟩

instance : IsTotal CPair LeCat := ⟨leCatB_total⟩

instance : IsTrans CPair LeCat := ⟨fun _ _ _ => leCatB_trans⟩

/-!
Permutation lemmas: each scan writes some pairs and leaves the rest, and
together the written and remaining pairs are a permutation of the current
list.
-/

theorem perm_shuffle (g x r : List CPair) :
    (g ++ (x ++ r)).Perm (x ++ (g ++ r)) := by
  rw [← List.append_assoc, ← List.append_assoc]
  exact List.Perm.append_right r List.perm_append_comm

theorem nto1Go_perm (fuel : Nat) :
    ∀ done rest : List CPair, rest.length ≤ fuel →
      ((nto1Go fuel done rest).1 ++ (nto1Go fuel done rest).2).Perm
        (done.reverse ++ rest) := by
  induction fuel with
  | zero =>
    intro done rest h
    have hr : rest = [] := List.eq_nil_of_length_eq_zero (Nat.le_zero.mp h)
    subst hr
    simp [nto1Go]
  | succ fuel ih =>
    intro done rest h
    cases rest with
    | nil => simp [nto1Go]
    | cons p rs =>
      have hrs : rs.length ≤ fuel := by
        simpa using Nat.succ_le_succ_iff.mp h
      simp only [nto1Go]
      split
      · -- the hub is written and deleted
        have hlen : (rs.filter fun q => !(q.2 == p.2)).length ≤ fuel :=
          (List.length_filter_le _ rs).trans hrs
        have ihp := ih done (rs.filter fun q => !(q.2 == p.2)) hlen
        have hsplit :
            (((p :: rs).filter fun q => q.2 == p.2) ++
              rs.filter fun q => !(q.2 == p.2)).Perm (p :: rs) := by
          have hfp := List.filter_append_perm (fun q => q.2 == p.2) (p :: rs)
          simpa [List.filter_cons] using hfp
        rw [List.append_assoc]
        exact (ihp.append_left _).trans ((perm_shuffle _ done.reverse _).trans
          (hsplit.append_left done.reverse))
      · -- skip past the run of the candidate cid2
        have hlen : ((p :: rs).dropWhile fun q => q.2 == p.2).length ≤ fuel := by
          have hd : ((p :: rs).dropWhile fun q => q.2 == p.2)
              = rs.dropWhile fun q => q.2 == p.2 := by
            simp [List.dropWhile_cons]
          rw [hd]
          exact (List.dropWhile_sublist _).length_le.trans hrs
        have ihp := ih (((p :: rs).takeWhile fun q => q.2 == p.2).reverse ++ done)
          ((p :: rs).dropWhile fun q => q.2 == p.2) hlen
        refine ihp.trans ?_
        rw [List.reverse_append, List.reverse_reverse, List.append_assoc,
          List.takeWhile_append_dropWhile]

theorem oneToNGo_perm (fuel : Nat) :
    ∀ done rest : List CPair, rest.length ≤ fuel →
      ((oneToNGo fuel done rest).1 ++ (oneToNGo fuel done rest).2).Perm
        (done.reverse ++ rest) := by
  induction fuel with
  | zero =>
    intro done rest h
    have hr : rest = [] := List.eq_nil_of_length_eq_zero (Nat.le_zero.mp h)
    subst hr
    simp [oneToNGo]
  | succ fuel ih =>
    intro done rest h
    cases rest with
    | nil => simp [oneToNGo]
    | cons p rs =>
      have hrs : rs.length ≤ fuel := by
        simpa using Nat.succ_le_succ_iff.mp h
      simp only [oneToNGo]
      split
      · have hlen : (rs.filter fun q => !(q.1 == p.1)).length ≤ fuel :=
          (List.length_filter_le _ rs).trans hrs
        have ihp := ih done (rs.filter fun q => !(q.1 == p.1)) hlen
        have hsplit :
            (((p :: rs).filter fun q => q.1 == p.1) ++
              rs.filter fun q => !(q.1 == p.1)).Perm (p :: rs) := by
          have hfp := List.filter_append_perm (fun q => q.1 == p.1) (p :: rs)
          simpa [List.filter_cons] using hfp
        rw [List.append_assoc]
        exact (ihp.append_left _).trans ((perm_shuffle _ done.reverse _).trans
          (hsplit.append_left done.reverse))
      · have hlen : ((p :: rs).dropWhile fun q => q.1 == p.1).length ≤ fuel := by
          have hd : ((p :: rs).dropWhile fun q => q.1 == p.1)
              = rs.dropWhile fun q => q.1 == p.1 := by
            simp [List.dropWhile_cons]
          rw [hd]
          exact (List.dropWhile_sublist _).length_le.trans hrs
        have ihp := ih (((p :: rs).takeWhile fun q => q.1 == p.1).reverse ++ done)
          ((p :: rs).dropWhile fun q => q.1 == p.1) hlen
        refine ihp.trans ?_
        rw [List.reverse_append, List.reverse_reverse, List.append_assoc,
          List.takeWhile_append_dropWhile]

theorem oneToOneGo_perm :
    ∀ rest done : List CPair,
      ((oneToOneGo done rest).1 ++ (oneToOneGo done rest).2).Perm
        (done.reverse ++ rest) := by
  intro rest
  induction rest with
  | nil => intro done; simp [oneToOneGo]
  | cons p rs ih =>
    intro done
    simp only [oneToOneGo]
    split
    · dsimp only
      rw [List.cons_append]
      exact ((ih done).cons p).trans List.perm_middle.symm
    · refine (ih (p :: done)).trans ?_
      rw [List.reverse_cons, List.append_assoc, List.singleton_append]

theorem bubblePass_perm (m : CPair) (l : List CPair) :
    ((bubblePass m l).1 :: (bubblePass m l).2).Perm (m :: l) := by
  induction l generalizing m with
  | nil => simp [bubblePass]
  | cons x xs ih =>
    simp only [bubblePass]
    split
    · dsimp only
      exact (List.Perm.swap m (bubblePass x xs).1 (bubblePass x xs).2).trans
        ((ih x).cons m)
    · dsimp only
      refine (List.Perm.swap x (bubblePass m xs).1 (bubblePass m xs).2).trans ?_
      exact ((ih m).cons x).trans (List.Perm.swap m x xs)

theorem sortGo_perm (fuel : Nat) :
    ∀ l : List CPair, (sortGo fuel l).Perm l := by
  induction fuel with
  | zero => intro l; exact List.Perm.refl _
  | succ fuel ih =>
    intro l
    cases l with
    | nil => exact List.Perm.refl _
    | cons x xs =>
      simp only [sortGo]
      exact ((ih _).cons _).trans (bubblePass_perm x xs)

theorem sortLists_perm (l : List CPair) : (sortLists l).Perm l :=
  sortGo_perm l.length l

theorem ntonGo_drain : ∀ l : List CPair, ntonGo l.length l = (l, []) := by
  intro l
  induction l with
  | nil => rfl
  | cons p rs ih => simp [ntonGo, ih]

theorem getNtoN_drain (l : List CPair) : getNtoN l = (l, []) :=
  ntonGo_drain l

/-!
Membership characterizations of the disjoint buckets and of the joint list.
-/

theorem shared2_eq_false_iff (set1 set2 : List Assoc) (c : String) :
    shared2 set1 set2 c = false ↔
      ∀ b ∈ set2, b.1 = c → ∀ a ∈ set1, a.2 ≠ b.2 := by
  simp only [shared2, Bool.eq_false_iff, ne_eq, List.any_eq_true, Bool.and_eq_true,
    beq_iff_eq, not_exists, not_and]

theorem shared1_eq_false_iff (set1 set2 : List Assoc) (c : String) :
    shared1 set1 set2 c = false ↔
      ∀ a ∈ set1, a.1 = c → ∀ b ∈ set2, b.2 ≠ a.2 := by
  simp only [shared1, Bool.eq_false_iff, ne_eq, List.any_eq_true, Bool.and_eq_true,
    beq_iff_eq, not_exists, not_and]

theorem mem_get0to1 (set1 set2 : List Assoc) (x : Assoc) :
    x ∈ get0to1 set1 set2 ↔ x ∈ set2 ∧ shared2 set1 set2 x.1 = false := by
  unfold get0to1
  rw [(List.perm_insertionSort LeFst _).mem_iff, List.mem_filter,
    Bool.not_eq_eq_eq_not, Bool.not_true]

theorem mem_get1to0 (set1 set2 : List Assoc) (x : Assoc) :
    x ∈ get1to0 set1 set2 ↔ x ∈ set1 ∧ shared1 set1 set2 x.1 = false := by
  unfold get1to0
  rw [(List.perm_insertionSort LeFst _).mem_iff, List.mem_filter,
    Bool.not_eq_eq_eq_not, Bool.not_true]

theorem mem_getLists (set1 set2 : List Assoc) (x : CPair) :
    x ∈ getLists set1 set2 ↔
      ∃ a ∈ set1, ∃ b ∈ set2, a.2 = b.2 ∧ x = (a.1, b.1) := by
  unfold getLists
  rw [(List.perm_insertionSort LeSnd _).mem_iff, List.mem_dedup, List.mem_flatMap]
  constructor
  · intro hx
    obtain ⟨a, ha, hx⟩ := hx
    rw [List.mem_filterMap] at hx
    obtain ⟨b, hb, hx⟩ := hx
    by_cases hm : a.2 = b.2
    · refine ⟨a, ha, b, hb, hm, ?_⟩
      rw [if_pos (beq_iff_eq.mpr hm)] at hx
      exact (Option.some_inj.mp hx).symm
    · rw [if_neg (by simpa using hm)] at hx
      cases hx
  · intro hx
    obtain ⟨a, ha, b, hb, hm, hx⟩ := hx
    refine ⟨a, ha, ?_⟩
    rw [List.mem_filterMap]
    exact ⟨b, hb, by rw [if_pos (beq_iff_eq.mpr hm), hx]⟩

theorem getLists_nodup (set1 set2 : List Assoc) : (getLists set1 set2).Nodup :=
  (List.perm_insertionSort LeSnd _).symm.nodup (List.nodup_dedup _)

/-- The four joint buckets of a run, in write order, are a permutation of
the joint list, and the run drains the cluster lists completely. -/
theorem bucketize_joint_perm (set1 set2 : List Assoc) :
    ((bucketize set1 set2).bNto1 ++ (bucketize set1 set2).b1to1 ++
      (bucketize set1 set2).b1toN ++ (bucketize set1 set2).bNtoN).Perm
      (getLists set1 set2) ∧ (bucketize set1 set2).leftover = [] := by
  have hN := nto1Go_perm (getLists set1 set2).length [] (getLists set1 set2)
    (Nat.le_refl _)
  have hs : (sortLists (getNto1 (getLists set1 set2)).2).Perm
      (getNto1 (getLists set1 set2)).2 := sortLists_perm _
  have h1 := oneToOneGo_perm (sortLists (getNto1 (getLists set1 set2)).2) []
  have hn := oneToNGo_perm
    (get1to1 (sortLists (getNto1 (getLists set1 set2)).2)).2.length []
    (get1to1 (sortLists (getNto1 (getLists set1 set2)).2)).2 (Nat.le_refl _)
  have hd := getNtoN_drain
    (get1toN (get1to1 (sortLists (getNto1 (getLists set1 set2)).2)).2).2
  simp only [List.reverse_nil, List.nil_append] at hN h1 hn
  constructor
  · show ((getNto1 (getLists set1 set2)).1 ++
      (get1to1 (sortLists (getNto1 (getLists set1 set2)).2)).1 ++
      (get1toN (get1to1 (sortLists (getNto1 (getLists set1 set2)).2)).2).1 ++
      (getNtoN (get1toN (get1to1 (sortLists
        (getNto1 (getLists set1 set2)).2)).2).2).1).Perm (getLists set1 set2)
    rw [hd]
    have step1 :
        ((get1toN (get1to1 (sortLists (getNto1 (getLists set1 set2)).2)).2).1 ++
          (get1toN (get1to1 (sortLists (getNto1 (getLists set1 set2)).2)).2).2).Perm
          (get1to1 (sortLists (getNto1 (getLists set1 set2)).2)).2 := hn
    have step2 :
        ((get1to1 (sortLists (getNto1 (getLists set1 set2)).2)).1 ++
          ((get1toN (get1to1 (sortLists (getNto1 (getLists set1 set2)).2)).2).1 ++
            (get1toN (get1to1 (sortLists (getNto1 (getLists set1 set2)).2)).2).2)).Perm
          (getNto1 (getLists set1 set2)).2 :=
      ((step1.append_left _).trans h1).trans hs
    have step3 :
        ((getNto1 (getLists set1 set2)).1 ++
          ((get1to1 (sortLists (getNto1 (getLists set1 set2)).2)).1 ++
            ((get1toN (get1to1 (sortLists (getNto1 (getLists set1 set2)).2)).2).1 ++
              (get1toN (get1to1 (sortLists (getNto1 (getLists set1 set2)).2)).2).2))).Perm
          (getLists set1 set2) :=
      (step2.append_left _).trans hN
    simpa [List.append_assoc] using step3
  · show (getNtoN (get1toN (get1to1 (sortLists
      (getNto1 (getLists set1 set2)).2)).2).2).2 = []
    rw [hd]

/-!
Sortedness lemmas: the joint list is sorted by (cid2, cid1); the N:1 scan
emits its pairs in that order; the exchange sort orders by the concatenated
ids and the 1:1 scan emits a subsequence of its input.
-/

theorem getLists_sorted (set1 set2 : List Assoc) :
    List.Pairwise LeSnd (getLists set1 set2) :=
  List.sorted_insertionSort LeSnd _

theorem ltStr_of_leSnd_ne {p q : CPair} (h : leSndB p q = true)
    (hne : p.2 ≠ q.2) : ltStr p.2 q.2 = true := by
  rcases Bool.or_eq_true_iff.mp h with h' | h'
  · exact h'
  · exact absurd (by simpa using (Bool.and_eq_true_iff.mp h').1) hne

theorem nto1Go_written_subset (fuel : Nat) :
    ∀ done rest : List CPair, ∀ x ∈ (nto1Go fuel done rest).1, x ∈ rest := by
  induction fuel with
  | zero => intro done rest x hx; simp [nto1Go] at hx
  | succ fuel ih =>
    intro done rest x hx
    cases rest with
    | nil => simp [nto1Go] at hx
    | cons p rs =>
      simp only [nto1Go] at hx
      split at hx
      · rw [List.mem_append] at hx
        rcases hx with hx | hx
        · exact List.mem_of_mem_filter hx
        · exact List.mem_cons_of_mem p
            (List.mem_of_mem_filter (ih _ _ x hx))
      · exact (List.dropWhile_sublist _).mem (ih _ _ x hx)

theorem nto1Go_written_sorted (fuel : Nat) :
    ∀ done rest : List CPair, List.Pairwise LeSnd rest →
      List.Pairwise LeSnd (nto1Go fuel done rest).1 := by
  induction fuel with
  | zero => intro done rest _; simp [nto1Go]
  | succ fuel ih =>
    intro done rest hrest
    cases rest with
    | nil => simp [nto1Go]
    | cons p rs =>
      simp only [nto1Go]
      split
      · rw [List.pairwise_append]
        refine ⟨hrest.sublist (List.filter_sublist _), ?_, ?_⟩
        · exact ih _ _ ((List.pairwise_cons.mp hrest).2.sublist (List.filter_sublist _))
        · intro g hg y hy
          have hgmem := List.mem_filter.mp hg
          have hg2 : g.2 = p.2 := by simpa using hgmem.2
          have hymem := List.mem_filter.mp (nto1Go_written_subset fuel _ _ y hy)
          have hy2 : y.2 ≠ p.2 := by
            have := hymem.2
            simp only [Bool.not_eq_eq_eq_not, Bool.not_true] at this
            simpa using this
          have hpy : leSndB p y = true :=
            (List.pairwise_cons.mp hrest).1 y hymem.1
          have hlt : ltStr p.2 y.2 = true :=
            ltStr_of_leSnd_ne hpy fun h => hy2 h.symm
          show leSndB g y = true
          unfold leSndB
          rw [hg2, hlt]
          rfl
      · exact ih _ _ (hrest.sublist (List.dropWhile_sublist _))

theorem leStr_refl (s : String) : leStr s s = true := by
  simp [leStr]

theorem leStr_of_not_lt {s t : String} (h : ltStr s t = false) :
    leStr t s = true := by
  rcases h2 : ltStr t s with _ | _
  · simp [leStr, ltStr_conn h2 h]
  · simp [leStr, h2]

theorem bubblePass_min (l : List CPair) :
    ∀ m : CPair, leCatB (bubblePass m l).1 m = true ∧
      ∀ y ∈ (bubblePass m l).2, leCatB (bubblePass m l).1 y = true := by
  induction l with
  | nil =>
    intro m
    exact ⟨leStr_refl _, by simp [bubblePass]⟩
  | cons x xs ih =>
    intro m
    simp only [bubblePass]
    split
    · rename_i hlt
      have hxm : leCatB x m = true := by
        unfold leCatB leStr
        rw [hlt]
        rfl
      refine ⟨leCatB_trans (ih x).1 hxm, ?_⟩
      intro y hy
      rcases List.mem_cons.mp hy with hy | hy
      · rw [hy]
        exact leCatB_trans (ih x).1 hxm
      · exact (ih x).2 y hy
    · rename_i hlt
      have hmx : leCatB m x = true :=
        leStr_of_not_lt (Bool.not_eq_true _ ▸ hlt)
      refine ⟨(ih m).1, ?_⟩
      intro y hy
      rcases List.mem_cons.mp hy with hy | hy
      · rw [hy]
        exact leCatB_trans (ih m).1 hmx
      · exact (ih m).2 y hy

theorem sortGo_sorted (fuel : Nat) :
    ∀ l : List CPair, l.length ≤ fuel → List.Pairwise LeCat (sortGo fuel l) := by
  induction fuel with
  | zero =>
    intro l h
    rw [List.eq_nil_of_length_eq_zero (Nat.le_zero.mp h)]
    simp [sortGo]
  | succ fuel ih =>
    intro l h
    cases l with
    | nil => simp [sortGo]
    | cons x xs =>
      simp only [sortGo]
      rw [List.pairwise_cons]
      constructor
      · intro y hy
        have hmem : y ∈ (bubblePass x xs).2 :=
          (sortGo_perm fuel _).mem_iff.mp hy
        exact (bubblePass_min xs x).2 y hmem
      · refine ih _ ?_
        rw [bubblePass_length]
        simpa using Nat.succ_le_succ_iff.mp h

theorem sortLists_sorted (l : List CPair) :
    List.Pairwise LeCat (sortLists l) :=
  sortGo_sorted l.length l (Nat.le_refl _)

theorem oneToOneGo_written_sublist :
    ∀ rest done : List CPair, ((oneToOneGo done rest).1).Sublist rest := by
  intro rest
  induction rest with
  | nil => intro done; simp [oneToOneGo]
  | cons p rs ih =>
    intro done
    simp only [oneToOneGo]
    split
    · exact (ih done).cons₂ p
    · exact (ih (p :: done)).cons p

/-!
Simulation lemmas: the two-parallel-list operations coincide with the
paired-list model, so every operation preserves the index pairing of
clist1 and clist2 (and in particular their equal length).
-/

theorem zip_map_fs (l : List CPair) :
    (l.map Prod.fst).zip (l.map Prod.snd) = l :=
  (List.zip_of_prod rfl rfl).symm

theorem mapFst_ctx {d1 d2 r1 r2 : List String} (h1 : d1.length = d2.length)
    (h2 : r1.length = r2.length) :
    (((d1.zip d2).reverse ++ r1.zip r2).map Prod.fst) = d1.reverse ++ r1 := by
  rw [List.map_append, List.map_reverse, List.map_fst_zip _ _ (le_of_eq h1),
    List.map_fst_zip _ _ (le_of_eq h2)]

theorem mapSnd_ctx {d1 d2 r1 r2 : List String} (h1 : d1.length = d2.length)
    (h2 : r1.length = r2.length) :
    (((d1.zip d2).reverse ++ r1.zip r2).map Prod.snd) = d2.reverse ++ r2 := by
  rw [List.map_append, List.map_reverse, List.map_snd_zip _ _ (ge_of_eq h1),
    List.map_snd_zip _ _ (ge_of_eq h2)]

theorem bubblePassL_sim :
    ∀ (l1 l2 : List String) (m1 m2 : String), l1.length = l2.length →
      bubblePassL m1 m2 l1 l2 =
        ((bubblePass (m1, m2) (l1.zip l2)).1,
          ((bubblePass (m1, m2) (l1.zip l2)).2).map Prod.fst,
          ((bubblePass (m1, m2) (l1.zip l2)).2).map Prod.snd) := by
  intro l1
  induction l1 with
  | nil =>
    intro l2 m1 m2 h
    have h2 : l2 = [] := List.eq_nil_of_length_eq_zero h.symm
    subst h2
    rfl
  | cons x xs ih =>
    intro l2 m1 m2 h
    cases l2 with
    | nil => simp at h
    | cons y ys =>
      have hlen : xs.length = ys.length := by simpa using h
      cases hc : ltStr (x ++ y) (m1 ++ m2) with
      | true =>
        simp only [bubblePassL, bubblePass, List.zip_cons_cons, hc, if_true,
          ih ys x y hlen, List.map_cons]
        rfl
      | false =>
        simp only [bubblePassL, bubblePass, List.zip_cons_cons, hc,
          Bool.false_eq_true, if_false, ih ys m1 m2 hlen, List.map_cons]
        rfl

theorem sortGoL_sim (fuel : Nat) :
    ∀ l1 l2 : List String, l1.length = l2.length →
      sortGoL fuel l1 l2 =
        ((sortGo fuel (l1.zip l2)).map Prod.fst,
          (sortGo fuel (l1.zip l2)).map Prod.snd) := by
  induction fuel with
  | zero =>
    intro l1 l2 h
    simp [sortGoL, sortGo, List.map_fst_zip _ _ (le_of_eq h),
      List.map_snd_zip _ _ (ge_of_eq h)]
  | succ fuel ih =>
    intro l1 l2 h
    cases l1 with
    | nil =>
      have h2 : l2 = [] := List.eq_nil_of_length_eq_zero h.symm
      subst h2
      rfl
    | cons x xs =>
      cases l2 with
      | nil => simp at h
      | cons y ys =>
        have hlen : xs.length = ys.length := by simpa using h
        have hbp := bubblePassL_sim xs ys x y hlen
        have hrec := ih ((bubblePass (x, y) (xs.zip ys)).2.map Prod.fst)
          ((bubblePass (x, y) (xs.zip ys)).2.map Prod.snd) (by simp)
        rw [zip_map_fs] at hrec
        simp only [sortGoL, sortGo, List.zip_cons_cons, hbp, hrec, List.map_cons]
        rfl

theorem oneToOneGoL_sim :
    ∀ r1 r2 d1 d2 : List String, r1.length = r2.length →
      d1.length = d2.length →
      oneToOneGoL d1 d2 r1 r2 =
        ((oneToOneGo (d1.zip d2) (r1.zip r2)).1,
          ((oneToOneGo (d1.zip d2) (r1.zip r2)).2).map Prod.fst,
          ((oneToOneGo (d1.zip d2) (r1.zip r2)).2).map Prod.snd) := by
  intro r1
  induction r1 with
  | nil =>
    intro r2 d1 d2 hr hd
    have h2 : r2 = [] := List.eq_nil_of_length_eq_zero hr.symm
    subst h2
    simp [oneToOneGoL, oneToOneGo, List.map_reverse,
      List.map_fst_zip _ _ (le_of_eq hd), List.map_snd_zip _ _ (ge_of_eq hd)]
  | cons a as ih =>
    intro r2 d1 d2 hr hd
    cases r2 with
    | nil => simp at hr
    | cons b bs =>
      have hlen : as.length = bs.length := by simpa using hr
      have e1 := mapFst_ctx hd hr
      have e2 := mapSnd_ctx hd hr
      rw [List.zip_cons_cons] at e1 e2
      simp only [oneToOneGoL, oneToOneGo, List.zip_cons_cons]
      simp only [← List.zip_eq_zipWith]
      simp only [e1, e2]
      split_ifs with hc
      · rw [ih bs d1 d2 hlen hd]
      · have hih := ih bs (a :: d1) (b :: d2) hlen (by simpa using hd)
        rw [List.zip_cons_cons] at hih
        exact hih

theorem selSnd_sim :
    ∀ l1 l2 : List String, ∀ c : String, l1.length = l2.length →
      selSnd c l1 l2 = (l1.zip l2).filter fun q => q.2 == c := by
  intro l1
  induction l1 with
  | nil =>
    intro l2 c h
    have h2 : l2 = [] := List.eq_nil_of_length_eq_zero h.symm
    subst h2
    rfl
  | cons a as ih =>
    intro l2 c h
    cases l2 with
    | nil => simp at h
    | cons b bs =>
      have hlen : as.length = bs.length := by simpa using h
      cases hc : (b == c) with
      | true => simp [selSnd, List.filter_cons, hc, ih bs c hlen]
      | false => simp [selSnd, List.filter_cons, hc, ih bs c hlen]

theorem remSnd_sim :
    ∀ l1 l2 : List String, ∀ c : String, l1.length = l2.length →
      remSnd c l1 l2 =
        (((l1.zip l2).filter fun q => !(q.2 == c)).map Prod.fst,
          ((l1.zip l2).filter fun q => !(q.2 == c)).map Prod.snd) := by
  intro l1
  induction l1 with
  | nil =>
    intro l2 c h
    have h2 : l2 = [] := List.eq_nil_of_length_eq_zero h.symm
    subst h2
    rfl
  | cons a as ih =>
    intro l2 c h
    cases l2 with
    | nil => simp at h
    | cons b bs =>
      have hlen : as.length = bs.length := by simpa using h
      cases hc : (b == c) with
      | true => simp [remSnd, List.filter_cons, hc, ih bs c hlen]
      | false => simp [remSnd, List.filter_cons, hc, ih bs c hlen]

theorem spanSnd_sim :
    ∀ l1 l2 : List String, ∀ c : String, l1.length = l2.length →
      spanSnd c l1 l2 =
        ((((l1.zip l2).takeWhile fun q => q.2 == c).map Prod.fst,
            ((l1.zip l2).takeWhile fun q => q.2 == c).map Prod.snd),
          ((l1.zip l2).dropWhile fun q => q.2 == c).map Prod.fst,
          ((l1.zip l2).dropWhile fun q => q.2 == c).map Prod.snd) := by
  intro l1
  induction l1 with
  | nil =>
    intro l2 c h
    have h2 : l2 = [] := List.eq_nil_of_length_eq_zero h.symm
    subst h2
    rfl
  | cons a as ih =>
    intro l2 c h
    cases l2 with
    | nil => simp at h
    | cons b bs =>
      have hlen : as.length = bs.length := by simpa using h
      cases hc : (b == c) with
      | true =>
        simp [spanSnd, List.takeWhile_cons, List.dropWhile_cons, hc, ih bs c hlen]
      | false =>
        simp [spanSnd, List.takeWhile_cons, List.dropWhile_cons, hc,
          List.map_fst_zip _ _ (le_of_eq hlen), List.map_snd_zip _ _ (ge_of_eq hlen)]

theorem zip_ctx (t : List CPair) {d1 d2 : List String}
    (_hd : d1.length = d2.length) :
    (((t.map Prod.fst).reverse ++ d1).zip ((t.map Prod.snd).reverse ++ d2))
      = t.reverse ++ d1.zip d2 := by
  rw [← List.map_reverse, ← List.map_reverse, List.zip_append (by simp),
    zip_map_fs]

theorem nto1GoL_sim (fuel : Nat) :
    ∀ r1 r2 d1 d2 : List String, r1.length = r2.length →
      d1.length = d2.length →
      nto1GoL fuel d1 d2 r1 r2 =
        ((nto1Go fuel (d1.zip d2) (r1.zip r2)).1,
          ((nto1Go fuel (d1.zip d2) (r1.zip r2)).2).map Prod.fst,
          ((nto1Go fuel (d1.zip d2) (r1.zip r2)).2).map Prod.snd) := by
  induction fuel with
  | zero =>
    intro r1 r2 d1 d2 hr hd
    simp [nto1GoL, nto1Go, mapFst_ctx hd hr, mapSnd_ctx hd hr]
  | succ fuel ih =>
    intro r1 r2 d1 d2 hr hd
    cases r1 with
    | nil =>
      have h2 : r2 = [] := List.eq_nil_of_length_eq_zero hr.symm
      subst h2
      simp [nto1GoL, nto1Go, List.map_reverse,
        List.map_fst_zip _ _ (le_of_eq hd), List.map_snd_zip _ _ (ge_of_eq hd)]
    | cons a as =>
      cases r2 with
      | nil => simp at hr
      | cons b bs =>
        have hlen : as.length = bs.length := by simpa using hr
        have e1 := mapFst_ctx hd hr
        have e2 := mapSnd_ctx hd hr
        rw [List.zip_cons_cons] at e1 e2
        have esel := selSnd_sim (a :: as) (b :: bs) b hr
        rw [List.zip_cons_cons] at esel
        simp only [nto1GoL, nto1Go, List.zip_cons_cons]
        simp only [← List.zip_eq_zipWith]
        simp only [e1, esel]
        split_ifs with hc
        · have erem := remSnd_sim as bs b hlen
          rw [erem]
          have hrec := ih (((as.zip bs).filter fun q => !(q.2 == b)).map Prod.fst)
            (((as.zip bs).filter fun q => !(q.2 == b)).map Prod.snd) d1 d2
            (by simp) hd
          rw [zip_map_fs] at hrec
          rw [hrec]
        · have espan := spanSnd_sim (a :: as) (b :: bs) b hr
          rw [List.zip_cons_cons] at espan
          rw [espan]
          have hrec := ih
            ((((a, b) :: as.zip bs).dropWhile fun q => q.2 == b).map Prod.fst)
            ((((a, b) :: as.zip bs).dropWhile fun q => q.2 == b).map Prod.snd)
            (((((a, b) :: as.zip bs).takeWhile fun q => q.2 == b).map Prod.fst).reverse ++ d1)
            (((((a, b) :: as.zip bs).takeWhile fun q => q.2 == b).map Prod.snd).reverse ++ d2)
            (by simp) (by simp [hd])
          rw [hrec, zip_ctx _ hd, zip_map_fs]

theorem selFst_sim :
    ∀ l1 l2 : List String, ∀ c : String, l1.length = l2.length →
      selFst c l1 l2 = (l1.zip l2).filter fun q => q.1 == c := by
  intro l1
  induction l1 with
  | nil =>
    intro l2 c h
    have h2 : l2 = [] := List.eq_nil_of_length_eq_zero h.symm
    subst h2
    rfl
  | cons a as ih =>
    intro l2 c h
    cases l2 with
    | nil => simp at h
    | cons b bs =>
      have hlen : as.length = bs.length := by simpa using h
      cases hc : (a == c) with
      | true => simp [selFst, List.filter_cons, hc, ih bs c hlen]
      | false => simp [selFst, List.filter_cons, hc, ih bs c hlen]

theorem remFst_sim :
    ∀ l1 l2 : List String, ∀ c : String, l1.length = l2.length →
      remFst c l1 l2 =
        (((l1.zip l2).filter fun q => !(q.1 == c)).map Prod.fst,
          ((l1.zip l2).filter fun q => !(q.1 == c)).map Prod.snd) := by
  intro l1
  induction l1 with
  | nil =>
    intro l2 c h
    have h2 : l2 = [] := List.eq_nil_of_length_eq_zero h.symm
    subst h2
    rfl
  | cons a as ih =>
    intro l2 c h
    cases l2 with
    | nil => simp at h
    | cons b bs =>
      have hlen : as.length = bs.length := by simpa using h
      cases hc : (a == c) with
      | true => simp [remFst, List.filter_cons, hc, ih bs c hlen]
      | false => simp [remFst, List.filter_cons, hc, ih bs c hlen]

theorem spanFst_sim :
    ∀ l1 l2 : List String, ∀ c : String, l1.length = l2.length →
      spanFst c l1 l2 =
        ((((l1.zip l2).takeWhile fun q => q.1 == c).map Prod.fst,
            ((l1.zip l2).takeWhile fun q => q.1 == c).map Prod.snd),
          ((l1.zip l2).dropWhile fun q => q.1 == c).map Prod.fst,
          ((l1.zip l2).dropWhile fun q => q.1 == c).map Prod.snd) := by
  intro l1
  induction l1 with
  | nil =>
    intro l2 c h
    have h2 : l2 = [] := List.eq_nil_of_length_eq_zero h.symm
    subst h2
    rfl
  | cons a as ih =>
    intro l2 c h
    cases l2 with
    | nil => simp at h
    | cons b bs =>
      have hlen : as.length = bs.length := by simpa using h
      cases hc : (a == c) with
      | true =>
        simp [spanFst, List.takeWhile_cons, List.dropWhile_cons, hc, ih bs c hlen]
      | false =>
        simp [spanFst, List.takeWhile_cons, List.dropWhile_cons, hc,
          List.map_fst_zip _ _ (le_of_eq hlen), List.map_snd_zip _ _ (ge_of_eq hlen)]

theorem oneToNGoL_sim (fuel : Nat) :
    ∀ r1 r2 d1 d2 : List String, r1.length = r2.length →
      d1.length = d2.length →
      oneToNGoL fuel d1 d2 r1 r2 =
        ((oneToNGo fuel (d1.zip d2) (r1.zip r2)).1,
          ((oneToNGo fuel (d1.zip d2) (r1.zip r2)).2).map Prod.fst,
          ((oneToNGo fuel (d1.zip d2) (r1.zip r2)).2).map Prod.snd) := by
  induction fuel with
  | zero =>
    intro r1 r2 d1 d2 hr hd
    simp [oneToNGoL, oneToNGo, mapFst_ctx hd hr, mapSnd_ctx hd hr]
  | succ fuel ih =>
    intro r1 r2 d1 d2 hr hd
    cases r1 with
    | nil =>
      have h2 : r2 = [] := List.eq_nil_of_length_eq_zero hr.symm
      subst h2
      simp [oneToNGoL, oneToNGo, List.map_reverse,
        List.map_fst_zip _ _ (le_of_eq hd), List.map_snd_zip _ _ (ge_of_eq hd)]
    | cons a as =>
      cases r2 with
      | nil => simp at hr
      | cons b bs =>
        have hlen : as.length = bs.length := by simpa using hr
        have e2 := mapSnd_ctx hd hr
        rw [List.zip_cons_cons] at e2
        have esel := selFst_sim (a :: as) (b :: bs) a hr
        rw [List.zip_cons_cons] at esel
        simp only [oneToNGoL, oneToNGo, List.zip_cons_cons]
        simp only [← List.zip_eq_zipWith]
        simp only [e2, esel]
        split_ifs with hc
        · have erem := remFst_sim as bs a hlen
          rw [erem]
          have hrec := ih (((as.zip bs).filter fun q => !(q.1 == a)).map Prod.fst)
            (((as.zip bs).filter fun q => !(q.1 == a)).map Prod.snd) d1 d2
            (by simp) hd
          rw [zip_map_fs] at hrec
          rw [hrec]
        · have espan := spanFst_sim (a :: as) (b :: bs) a hr
          rw [List.zip_cons_cons] at espan
          rw [espan]
          have hrec := ih
            ((((a, b) :: as.zip bs).dropWhile fun q => q.1 == a).map Prod.fst)
            ((((a, b) :: as.zip bs).dropWhile fun q => q.1 == a).map Prod.snd)
            (((((a, b) :: as.zip bs).takeWhile fun q => q.1 == a).map Prod.fst).reverse ++ d1)
            (((((a, b) :: as.zip bs).takeWhile fun q => q.1 == a).map Prod.snd).reverse ++ d2)
            (by simp) (by simp [hd])
          rw [hrec, zip_ctx _ hd, zip_map_fs]

theorem ntonGoL_sim :
    ∀ (n : Nat) (l1 l2 : List String), l1.length = l2.length →
      ntonGoL n l1 l2 =
        ((ntonGo n (l1.zip l2)).1,
          ((ntonGo n (l1.zip l2)).2).map Prod.fst,
          ((ntonGo n (l1.zip l2)).2).map Prod.snd) := by
  intro n
  induction n with
  | zero =>
    intro l1 l2 h
    simp [ntonGoL, ntonGo, List.map_fst_zip _ _ (le_of_eq h),
      List.map_snd_zip _ _ (ge_of_eq h)]
  | succ n ih =>
    intro l1 l2 h
    cases l1 with
    | nil =>
      have h2 : l2 = [] := List.eq_nil_of_length_eq_zero h.symm
      subst h2
      rfl
    | cons a as =>
      cases l2 with
      | nil => simp at h
      | cons b bs =>
        have hlen : as.length = bs.length := by simpa using h
        simp only [ntonGoL, ntonGo, List.zip_cons_cons, ih as bs hlen,
          List.map_cons]
        rfl

/-!
The claims.
-/

/-- Claim C1 (the code violates it): bucket membership of a joint edge is
not determined by the shape of its connected component.  On the input sets
set1 = [(a,m1),(a,m2),(a,m3),(ab,m4)], set2 = [(a,m1),(a,m4),(y,m2),(z,m3)]
all four joint edges form one connected component whose node sets are
{a, ab} on side 1 and {a, y, z} on side 2 (an N:N shape), yet get1toN
writes (a,y) and (a,z) to the 1toN bucket while (a,a) and (ab,a) fall to
the NtoN bucket: two edges of the same component land in different
buckets.  The cause is the rescan in get1toN: after hub a is first
rejected, its run is skipped, and at a later non-contiguous occurrence the
exclusivity check sees only a suffix of a's partners and wrongly
accepts. -/
theorem get1toN_splits_a_component :
    componentOf
        (getLists [("a","m1"),("a","m2"),("a","m3"),("ab","m4")]
          [("a","m1"),("a","m4"),("y","m2"),("z","m3")]) ("a","y")
      = [("a","y"),("a","a"),("a","z"),("ab","a")] ∧
    sameComponent
        (getLists [("a","m1"),("a","m2"),("a","m3"),("ab","m4")]
          [("a","m1"),("a","m4"),("y","m2"),("z","m3")]) ("a","y") ("ab","a")
      = true ∧
    (bucketize [("a","m1"),("a","m2"),("a","m3"),("ab","m4")]
        [("a","m1"),("a","m4"),("y","m2"),("z","m3")]).b1toN
      = [("a","y"),("a","z")] ∧
    (bucketize [("a","m1"),("a","m2"),("a","m3"),("ab","m4")]
        [("a","m1"),("a","m4"),("y","m2"),("z","m3")]).bNtoN
      = [("a","a"),("ab","a")] := by
  refine ⟨by decide, by decide, by decide, by decide⟩

/-- Claim C2: the six buckets partition the record space — the four joint
buckets together hold exactly the distinct joint edges, each exactly once
(the joint list has no duplicates and the cluster lists are drained), and
the 0to1/1to0 buckets hold exactly the associations of the fully disjoint
clusters of each side. -/
theorem bucketize_six_way_partition (set1 set2 : List Assoc) :
    ((bucketize set1 set2).bNto1 ++ (bucketize set1 set2).b1to1 ++
      (bucketize set1 set2).b1toN ++ (bucketize set1 set2).bNtoN).Perm
      (getLists set1 set2) ∧
    ((bucketize set1 set2).bNto1 ++ (bucketize set1 set2).b1to1 ++
      (bucketize set1 set2).b1toN ++ (bucketize set1 set2).bNtoN).Nodup ∧
    (bucketize set1 set2).leftover = [] ∧
    (∀ x : Assoc, x ∈ (bucketize set1 set2).b0to1 ↔
      x ∈ set2 ∧ shared2 set1 set2 x.1 = false) ∧
    (∀ x : Assoc, x ∈ (bucketize set1 set2).b1to0 ↔
      x ∈ set1 ∧ shared1 set1 set2 x.1 = false) := by
  obtain ⟨hperm, hleft⟩ := bucketize_joint_perm set1 set2
  refine ⟨hperm, hperm.symm.nodup (getLists_nodup set1 set2), hleft, ?_, ?_⟩
  · intro x
    exact mem_get0to1 set1 set2 x
  · intro x
    exact mem_get1to0 set1 set2 x

/-- Claim C3 (the code violates it as stated): on set1 = [(c1,m1)],
set2 = [(c2,m1),(c2,m2)], the member m2 does not occur in any association
of set 1, so the claim would put (c2,m2) in the 0to1 bucket; but the
bucket is empty, because cluster c2 shares m1 with set 1 and exclusion is
per cluster, not per member. -/
theorem get0to1_not_member_level :
    (bucketize [("c1","m1")] [("c2","m1"),("c2","m2")]).b0to1 = [] ∧
    ("c2","m2") ∈ ([("c2","m1"),("c2","m2")] : List Assoc) ∧
    (∀ a ∈ ([("c1","m1")] : List Assoc), a.2 ≠ "m2") := by
  refine ⟨by decide, by decide, by decide⟩

/-- Claim C3 (amended): the 0to1 bucket contains exactly those (cid2, mid)
associations of set 2 whose cluster cid2 shares no member at all with
set 1. -/
theorem mem_b0to1_iff (set1 set2 : List Assoc) (x : Assoc) :
    x ∈ (bucketize set1 set2).b0to1 ↔
      x ∈ set2 ∧ ∀ b ∈ set2, b.1 = x.1 → ∀ a ∈ set1, a.2 ≠ b.2 := by
  have h := mem_get0to1 set1 set2 x
  have hs := shared2_eq_false_iff set1 set2 x.1
  show x ∈ get0to1 set1 set2 ↔ _
  rw [h, hs]

/-- Claim C4: inclusion in the 0to1 bucket is all-or-nothing per set-2
cluster — a fully disjoint cluster contributes all of its associations, a
cluster sharing at least one member contributes none (even its unmatched
associations) — and symmetrically for the 1to0 bucket. -/
theorem disjoint_buckets_all_or_nothing (set1 set2 : List Assoc) (c : String) :
    ((∀ b ∈ set2, b.1 = c → ∀ a ∈ set1, a.2 ≠ b.2) →
      ∀ b ∈ set2, b.1 = c → b ∈ (bucketize set1 set2).b0to1) ∧
    ((∃ b ∈ set2, b.1 = c ∧ ∃ a ∈ set1, a.2 = b.2) →
      ∀ b ∈ set2, b.1 = c → b ∉ (bucketize set1 set2).b0to1) ∧
    ((∀ a ∈ set1, a.1 = c → ∀ b ∈ set2, b.2 ≠ a.2) →
      ∀ a ∈ set1, a.1 = c → a ∈ (bucketize set1 set2).b1to0) ∧
    ((∃ a ∈ set1, a.1 = c ∧ ∃ b ∈ set2, b.2 = a.2) →
      ∀ a ∈ set1, a.1 = c → a ∉ (bucketize set1 set2).b1to0) := by
  refine ⟨?_, ?_, ?_, ?_⟩
  · intro hdisj b hb hbc
    refine (mem_get0to1 set1 set2 b).mpr ⟨hb, ?_⟩
    rw [hbc, shared2_eq_false_iff]
    exact hdisj
  · intro hsh b hb hbc hmem
    have hfalse := ((mem_get0to1 set1 set2 b).mp hmem).2
    rw [hbc, shared2_eq_false_iff] at hfalse
    obtain ⟨b', hb', hb'c, a, ha, hab⟩ := hsh
    exact hfalse b' hb' hb'c a ha hab
  · intro hdisj a ha hac
    refine (mem_get1to0 set1 set2 a).mpr ⟨ha, ?_⟩
    rw [hac, shared1_eq_false_iff]
    exact hdisj
  · intro hsh a ha hac hmem
    have hfalse := ((mem_get1to0 set1 set2 a).mp hmem).2
    rw [hac, shared1_eq_false_iff] at hfalse
    obtain ⟨a', ha', ha'c, b, hb, hab⟩ := hsh
    exact hfalse a' ha' ha'c b hb hab

/-- Claim C5 (the code violates it as stated): the Nto1 bucket is written
in (cid2, cid1) order, not (cid1, cid2) order — on the first input below
it is [(b,x),(c,x),(a,y),(d,y)] — and the 1to1 bucket is written in the
order of the concatenated keys, not of the pairs — on the second input it
is [(ab,a),(a,z)], where (a,z) < (ab,a) as pairs. -/
theorem joint_buckets_not_pair_sorted :
    (bucketize [("b","m1"),("c","m1"),("a","m2"),("d","m2")]
        [("x","m1"),("y","m2")]).bNto1
      = [("b","x"),("c","x"),("a","y"),("d","y")] ∧
    ¬ List.Pairwise LeFst
      ((bucketize [("b","m1"),("c","m1"),("a","m2"),("d","m2")]
        [("x","m1"),("y","m2")]).bNto1) ∧
    (bucketize [("a","m1"),("ab","m2")] [("z","m1"),("a","m2")]).b1to1
      = [("ab","a"),("a","z")] ∧
    ¬ List.Pairwise LeFst
      ((bucketize [("a","m1"),("ab","m2")] [("z","m1"),("a","m2")]).b1to1) := by
  refine ⟨by decide, by decide, by decide, by decide⟩

/-- Claim C5 (amended): the Nto1 bucket is written in ascending
(cid2, cid1) order, and the 1to1 bucket in ascending order of the
concatenated key cid1 ++ cid2. -/
theorem nto1_and_1to1_write_order (set1 set2 : List Assoc) :
    List.Pairwise LeSnd ((bucketize set1 set2).bNto1) ∧
    List.Pairwise LeCat ((bucketize set1 set2).b1to1) := by
  constructor
  · show List.Pairwise LeSnd (getNto1 (getLists set1 set2)).1
    exact nto1Go_written_sorted (getLists set1 set2).length [] _
      (getLists_sorted set1 set2)
  · show List.Pairwise LeCat
      (get1to1 (sortLists (getNto1 (getLists set1 set2)).2)).1
    exact (sortLists_sorted (getNto1 (getLists set1 set2)).2).sublist
      (oneToOneGo_written_sublist _ [])

/-- Claim C6 (the code violates it): swapping the two input sets does not
swap the joint buckets.  On the C1 input, the forward run writes (a,y) to
the 1toN bucket, but the swapped run's Nto1 bucket is empty — the swapped
edge (y,a) instead lands in the swapped run's NtoN bucket, while the
forward NtoN bucket does not contain (a,a)'s counterpart count: the NtoN
buckets differ in size as well (2 versus 4 edges). -/
theorem bucket_swap_symmetry_fails :
    ("a","y") ∈ (bucketize [("a","m1"),("a","m2"),("a","m3"),("ab","m4")]
      [("a","m1"),("a","m4"),("y","m2"),("z","m3")]).b1toN ∧
    (bucketize [("a","m1"),("a","m4"),("y","m2"),("z","m3")]
      [("a","m1"),("a","m2"),("a","m3"),("ab","m4")]).bNto1 = [] ∧
    ("y","a") ∈ (bucketize [("a","m1"),("a","m4"),("y","m2"),("z","m3")]
      [("a","m1"),("a","m2"),("a","m3"),("ab","m4")]).bNtoN ∧
    ("a","y") ∉ (bucketize [("a","m1"),("a","m2"),("a","m3"),("ab","m4")]
      [("a","m1"),("a","m4"),("y","m2"),("z","m3")]).bNtoN := by
  refine ⟨by decide, by decide, by decide, by decide⟩

/-- Claim C7 (the code violates it): when an input file does not exist,
bucketize returns the error status 1, but the MAIN of clusterfile.py
discards that status and exits 0; only the argument-count check exits
non-zero. -/
theorem clusterfile_exit_code_bug :
    (bucketizeRun (fun _ => none) [] "in1" "in2").1 = 1 ∧
    (clusterfileMain ["clusterfile.py","in1","in2","out"] (fun _ => none) []).1
      = 0 ∧
    (clusterfileMain ["clusterfile.py"] (fun _ => none) []).1 = 1 := by
  refine ⟨rfl, rfl, rfl⟩

/-- Claim C8 (the code violates it as stated): after a successful run the
temporary cluster-set tables are still in the database session — the
session is not empty — and a second file-based run in the same session
fails on the duplicate table name instead of observing a clean state. -/
theorem temp_tables_persist_example :
    (bucketizeRun (twoFiles [("c1","m1")] [("c2","m1")]) [] "file1" "file2").1
      = 0 ∧
    (bucketizeRun (twoFiles [("c1","m1")] [("c2","m1")]) [] "file1" "file2").2.1
      ≠ [] ∧
    (bucketizeRun (twoFiles [("c1","m1")] [("c2","m1")])
      (bucketizeRun (twoFiles [("c1","m1")] [("c2","m1")]) [] "file1"
        "file2").2.1 "file1" "file2").1 = 1 := by
  refine ⟨by decide, by decide, by decide⟩

/-- Claim C8 (amended): a successful file-based run drains the cluster
lists (the leftover is empty) but leaves the two temporary cluster-set
tables in the session, and a second file-based run in the same session
fails with status 1. -/
theorem bucketize_run_state (c1 c2 : List Assoc) :
    (bucketizeRun (twoFiles c1 c2) [] "file1" "file2").1 = 0 ∧
    (bucketizeRun (twoFiles c1 c2) [] "file1" "file2").2.1 = [(1, c1), (2, c2)] ∧
    (bucketizeRun (twoFiles c1 c2) [] "file1" "file2").2.2.leftover = [] ∧
    (bucketizeRun (twoFiles c1 c2)
      (bucketizeRun (twoFiles c1 c2) [] "file1" "file2").2.1 "file1"
        "file2").1 = 1 := by
  have hrun : bucketizeRun (twoFiles c1 c2) [] "file1" "file2"
      = (0, [(1, c1), (2, c2)], bucketize c1 c2) := by
    simp [bucketizeRun, loadFileSource, twoFiles]
  refine ⟨by rw [hrun], by rw [hrun], ?_, ?_⟩
  · rw [hrun]
    exact (bucketize_joint_perm c1 c2).2
  · rw [hrun]
    simp [bucketizeRun, loadFileSource, twoFiles]

/-- Claim C9: the two parallel cluster lists evolve in lockstep — each of
sortLists, get1to1, getNto1, get1toN and getNtoN, run on two equal-length
lists, produces exactly the component-wise projections of the paired-list
model, so writes take (clist1[k], clist2[k]) at a common index, deletions
remove both coordinates together, and the lists keep equal length. -/
theorem clist_pairing_preserved (l1 l2 : List String)
    (h : l1.length = l2.length) :
    sortListsL l1 l2 = ((sortLists (l1.zip l2)).map Prod.fst,
      (sortLists (l1.zip l2)).map Prod.snd) ∧
    get1to1L l1 l2 = ((get1to1 (l1.zip l2)).1,
      ((get1to1 (l1.zip l2)).2).map Prod.fst,
      ((get1to1 (l1.zip l2)).2).map Prod.snd) ∧
    getNto1L l1 l2 = ((getNto1 (l1.zip l2)).1,
      ((getNto1 (l1.zip l2)).2).map Prod.fst,
      ((getNto1 (l1.zip l2)).2).map Prod.snd) ∧
    get1toNL l1 l2 = ((get1toN (l1.zip l2)).1,
      ((get1toN (l1.zip l2)).2).map Prod.fst,
      ((get1toN (l1.zip l2)).2).map Prod.snd) ∧
    getNtoNL l1 l2 = ((getNtoN (l1.zip l2)).1,
      ((getNtoN (l1.zip l2)).2).map Prod.fst,
      ((getNtoN (l1.zip l2)).2).map Prod.snd) ∧
    (sortListsL l1 l2).1.length = (sortListsL l1 l2).2.length ∧
    (get1to1L l1 l2).2.1.length = (get1to1L l1 l2).2.2.length ∧
    (getNto1L l1 l2).2.1.length = (getNto1L l1 l2).2.2.length ∧
    (get1toNL l1 l2).2.1.length = (get1toNL l1 l2).2.2.length ∧
    (getNtoNL l1 l2).2.1.length = (getNtoNL l1 l2).2.2.length := by
  have hz : (l1.zip l2).length = l1.length := by
    rw [List.length_zip, h, Nat.min_self]
  have hsort : sortListsL l1 l2 = ((sortLists (l1.zip l2)).map Prod.fst,
      (sortLists (l1.zip l2)).map Prod.snd) := by
    show sortGoL l1.length l1 l2 = _
    rw [sortGoL_sim l1.length l1 l2 h]
    show _ = ((sortGo (l1.zip l2).length (l1.zip l2)).map Prod.fst,
      (sortGo (l1.zip l2).length (l1.zip l2)).map Prod.snd)
    rw [hz]
  have h11 : get1to1L l1 l2 = ((get1to1 (l1.zip l2)).1,
      ((get1to1 (l1.zip l2)).2).map Prod.fst,
      ((get1to1 (l1.zip l2)).2).map Prod.snd) :=
    oneToOneGoL_sim l1 l2 [] [] h rfl
  have hN1 : getNto1L l1 l2 = ((getNto1 (l1.zip l2)).1,
      ((getNto1 (l1.zip l2)).2).map Prod.fst,
      ((getNto1 (l1.zip l2)).2).map Prod.snd) := by
    show nto1GoL l1.length [] [] l1 l2 = _
    rw [nto1GoL_sim l1.length l1 l2 [] [] h rfl]
    show _ = ((nto1Go (l1.zip l2).length [] (l1.zip l2)).1,
      ((nto1Go (l1.zip l2).length [] (l1.zip l2)).2).map Prod.fst,
      ((nto1Go (l1.zip l2).length [] (l1.zip l2)).2).map Prod.snd)
    rw [hz]
    rfl
  have h1N : get1toNL l1 l2 = ((get1toN (l1.zip l2)).1,
      ((get1toN (l1.zip l2)).2).map Prod.fst,
      ((get1toN (l1.zip l2)).2).map Prod.snd) := by
    show oneToNGoL l1.length [] [] l1 l2 = _
    rw [oneToNGoL_sim l1.length l1 l2 [] [] h rfl]
    show _ = ((oneToNGo (l1.zip l2).length [] (l1.zip l2)).1,
      ((oneToNGo (l1.zip l2).length [] (l1.zip l2)).2).map Prod.fst,
      ((oneToNGo (l1.zip l2).length [] (l1.zip l2)).2).map Prod.snd)
    rw [hz]
    rfl
  have hNN : getNtoNL l1 l2 = ((getNtoN (l1.zip l2)).1,
      ((getNtoN (l1.zip l2)).2).map Prod.fst,
      ((getNtoN (l1.zip l2)).2).map Prod.snd) := by
    show ntonGoL l1.length l1 l2 = _
    rw [ntonGoL_sim l1.length l1 l2 h]
    show _ = ((ntonGo (l1.zip l2).length (l1.zip l2)).1,
      ((ntonGo (l1.zip l2).length (l1.zip l2)).2).map Prod.fst,
      ((ntonGo (l1.zip l2).length (l1.zip l2)).2).map Prod.snd)
    rw [hz]
  refine ⟨hsort, h11, hN1, h1N, hNN, ?_, ?_, ?_, ?_, ?_⟩
  · rw [hsort]; simp
  · rw [h11]; simp
  · rw [hN1]; simp
  · rw [h1N]; simp
  · rw [hNN]; simp

/-- Claim C9 witness: the lockstep theorem applied to the concrete
equal-length lists ["a"], ["b"]. -/
theorem clist_pairing_preserved_witness :
    (["a"] : List String).length = (["b"] : List String).length ∧
    (sortListsL ["a"] ["b"] = (((sortLists ((["a"] : List String).zip ["b"])).map Prod.fst),
      ((sortLists ((["a"] : List String).zip ["b"])).map Prod.snd)) ∧
    get1to1L ["a"] ["b"] = ((get1to1 ((["a"] : List String).zip ["b"])).1,
      ((get1to1 ((["a"] : List String).zip ["b"])).2).map Prod.fst,
      ((get1to1 ((["a"] : List String).zip ["b"])).2).map Prod.snd) ∧
    getNto1L ["a"] ["b"] = ((getNto1 ((["a"] : List String).zip ["b"])).1,
      ((getNto1 ((["a"] : List String).zip ["b"])).2).map Prod.fst,
      ((getNto1 ((["a"] : List String).zip ["b"])).2).map Prod.snd) ∧
    get1toNL ["a"] ["b"] = ((get1toN ((["a"] : List String).zip ["b"])).1,
      ((get1toN ((["a"] : List String).zip ["b"])).2).map Prod.fst,
      ((get1toN ((["a"] : List String).zip ["b"])).2).map Prod.snd) ∧
    getNtoNL ["a"] ["b"] = ((getNtoN ((["a"] : List String).zip ["b"])).1,
      ((getNtoN ((["a"] : List String).zip ["b"])).2).map Prod.fst,
      ((getNtoN ((["a"] : List String).zip ["b"])).2).map Prod.snd) ∧
    (sortListsL ["a"] ["b"]).1.length = (sortListsL ["a"] ["b"]).2.length ∧
    (get1to1L ["a"] ["b"]).2.1.length = (get1to1L ["a"] ["b"]).2.2.length ∧
    (getNto1L ["a"] ["b"]).2.1.length = (getNto1L ["a"] ["b"]).2.2.length ∧
    (get1toNL ["a"] ["b"]).2.1.length = (get1toNL ["a"] ["b"]).2.2.length ∧
    (getNtoNL ["a"] ["b"]).2.1.length = (getNtoNL ["a"] ["b"]).2.2.length) :=
  ⟨by decide, clist_pairing_preserved ["a"] ["b"] (by decide)⟩

/-- Claim C10: convert.py never overwrites an existing file — whenever the
named output file exists in the filesystem, the script exits 1 and the
filesystem is unchanged. -/
theorem convert_no_overwrite (argv : List String) (fs : String → Option String)
    (h : (fs (argv.getD 2 "")).isSome = true) :
    convertMain argv fs = (1, fs) := by
  unfold convertMain
  split_ifs with h1 h2
  all_goals rfl

/-- Claim C10 witness: the no-overwrite theorem at a concrete invocation
whose output file exists. -/
theorem convert_no_overwrite_witness :
    ((fun p => if p == "out" then some "x" else none)
      ((["convert.py","in","out",","] : List String).getD 2 "")).isSome = true ∧
    convertMain ["convert.py","in","out",","]
      (fun p => if p == "out" then some "x" else none)
      = (1, fun p => if p == "out" then some "x" else none) :=
  ⟨by decide, convert_no_overwrite ["convert.py","in","out",","]
    (fun p => if p == "out" then some "x" else none) (by decide)⟩
